import Mathlib

/-!
Shallow embedding of the core of `src/src/lua_sandbox_private.c` (a Lua
sandbox: allocation interposer, output buffer, serializer dispatch entry
point `output`, library gate `load_library`, require resolver
`require_library`, and `sandbox_terminate`), together with theorems that
settle the specification claims about it.

The quota counters in the C source are `unsigned` (32-bit) fields and the
sizes are `size_t` (64-bit); arithmetic on them is modular, which we model
with explicit `% 2^32` / `% 2^64` reductions at exactly the points where
the C code casts.
-/

namespace LuaSandbox

/-- `2^32`, the modulus of the C `unsigned` quota counters. -/
def U32 : Nat := 4294967296

/-- `2^64`, the modulus of C `size_t` arithmetic. -/
def U64 : Nat := 18446744073709551616

/-- Reduction to `unsigned` (the C cast `(unsigned)x`). -/
def wrap32 (n : Nat) : Nat := n % U32

/-- Reduction to `size_t`. -/
def wrap64 (n : Nat) : Nat := n % U64

/-- One row of the `usage` matrix: the `(LIMIT, CURRENT, MAXIMUM)` triple
for a single resource (`lsb->usage[resource][metric]`). -/
structure Quota where
  limit : Nat
  current : Nat
  maximum : Nat
deriving DecidableEq

/-- Result of one call to the allocation interposer `memory_manager`:
whether a non-null pointer was returned, the updated memory quota row, and
whether `realloc` / `free` were invoked (to express "without reallocating"
claims). -/
structure MemResult where
  retNonNull : Bool
  usage : Quota
  reallocCalled : Bool
  freeCalled : Bool
deriving DecidableEq

/-- `memory_manager` from `lua_sandbox_private.c`.

C source shape: on `nsize == 0` it frees `ptr` and subtracts
`(unsigned)osize` from `CURRENT`; otherwise it computes
`new_state_memory = (unsigned)(CURRENT + nsize - osize)` (a `size_t`
computation cast to `unsigned`), refuses when the limit is nonzero and
exceeded, and otherwise calls `realloc`, updating `CURRENT` and `MAXIMUM`
only on success.  The success of the host `realloc` is the oracle
parameter `reallocOk`. -/
def memory_manager (u : Quota) (osize nsize : Nat) (reallocOk : Bool) :
    MemResult :=
  if nsize = 0 then
    { retNonNull := false
      usage := { u with current := wrap32 (u.current + (U32 - wrap32 osize)) }
      reallocCalled := false
      freeCalled := true }
  else
    let new_state_memory :=
      wrap32 (wrap64 (wrap64 (u.current + nsize) + (U64 - wrap64 osize)))
    if u.limit = 0 ∨ new_state_memory ≤ u.limit then
      if reallocOk then
        { retNonNull := true
          usage :=
            { u with
              current := new_state_memory
              maximum :=
                if new_state_memory > u.maximum then new_state_memory
                else u.maximum }
          reallocCalled := true
          freeCalled := false }
      else
        { retNonNull := false, usage := u, reallocCalled := true
          freeCalled := false }
    else
      { retNonNull := false, usage := u, reallocCalled := false
        freeCalled := false }

/-- The `output_data` structure: a byte buffer (`data` is the memory
contents, indexed by offset), the write position `pos`, the allocated
`size`, and the hard ceiling `maxsize` (`0` = unbounded). -/
structure OutputData where
  data : Nat → Nat
  pos : Nat
  size : Nat
  maxsize : Nat

/-- `update_output_stats`: copies `(unsigned)output.pos` into
`CURRENT[OUTPUT]` and raises `MAXIMUM[OUTPUT]` to it when larger. -/
def update_output_stats (buf : OutputData) (q : Quota) : Quota :=
  let cur := wrap32 buf.pos
  { q with
    current := cur
    maximum := if cur > q.maximum then cur else q.maximum }

/-- The size-doubling loop shared by `realloc_output` and `appendf`:
`newsize = 2*size; while (needed >= newsize - pos) newsize *= 2;`.
The subtraction is `Nat` truncated subtraction, matching the `size_t`
subtraction on the reachable states (`pos ≤ newsize`).  With `cur = 0`
the C loop does not terminate; the model returns `0` there, and every
theorem below keeps that case out of scope via `0 < size`. -/
def grow_newsize (needed pos : Nat) (cur : Nat) : Nat :=
  if h0 : cur = 0 then 0
  else if h1 : needed ≥ cur - pos then grow_newsize needed pos (2 * cur)
  else cur
termination_by needed + pos + 1 - cur
decreasing_by omega

/-- `realloc_output`: refuse when the request would pass `maxsize`,
otherwise double `size` as needed (capped at `maxsize`) and `realloc`.
`allocOk` is the host-allocator success oracle; on any failure the buffer
is returned unchanged together with the failure code `true`. -/
def realloc_output (buf : OutputData) (needed : Nat) (allocOk : Bool) :
    OutputData × Bool :=
  if buf.maxsize ≠ 0 ∧ needed + buf.pos > buf.maxsize then (buf, true)
  else
    let n0 := grow_newsize needed buf.pos (2 * buf.size)
    let newsize := if buf.maxsize ≠ 0 ∧ n0 > buf.maxsize then buf.maxsize
      else n0
    if allocOk then ({ buf with size := newsize }, false) else (buf, true)

/-- The `memcpy` of `appends`: writes the `needed = len+1` bytes of the C
string `s` (its content plus the terminating zero) at offset `pos` and
advances `pos` by `needed - 1`. -/
def writeStr (b : OutputData) (s : List Nat) : OutputData :=
  { b with
    data := fun i =>
      if b.pos ≤ i ∧ i < b.pos + (s.length + 1) then
        (s ++ [0]).getD (i - b.pos) 0
      else b.data i
    pos := b.pos + s.length }

/-- `appends`: append the C string `s` (modelled as its byte list, no
interior zero byte), growing the buffer through `realloc_output` when the
free space is short of `strlen(s) + 1`. -/
def appends (buf : OutputData) (s : List Nat) (allocOk : Bool) :
    OutputData × Bool :=
  let needed := s.length + 1
  if buf.size - buf.pos < needed then
    let r := realloc_output buf needed allocOk
    if r.2 then (r.1, true) else (writeStr r.1 s, false)
  else (writeStr buf s, false)

/-- `appendc`: append one byte and a trailing zero; `pos` advances by 1. -/
def appendc (buf : OutputData) (ch : Nat) (allocOk : Bool) :
    OutputData × Bool :=
  if buf.size - buf.pos < 2 then
    let r := realloc_output buf 2 allocOk
    if r.2 then (r.1, true)
    else
      ({ r.1 with
         data := fun i =>
           if i = r.1.pos then ch
           else if i = r.1.pos + 1 then 0
           else r.1.data i
         pos := r.1.pos + 1 }, false)
  else
    ({ buf with
       data := fun i =>
         if i = buf.pos then ch
         else if i = buf.pos + 1 then 0
         else buf.data i
       pos := buf.pos + 1 }, false)

/-- The body of `appendf` specialised to the format `"%s"` (the only form
`output()` uses): `vsnprintf` reports `needed = strlen(s)`; when it fits
(`needed < size - pos`) the string and its terminator are written and
`pos += needed`; otherwise the buffer is grown (with the `maxsize`
refusals of the C code) and the do-while loop retries.  The C loop body
runs at most twice, because a successful growth always leaves
`needed < newsize - pos`; the fuel bounds the recursion accordingly. -/
def appendf_loop (s : List Nat) (allocOk : Bool) :
    Nat → OutputData → OutputData × Bool
  | 0, buf => (buf, true)
  | fuel + 1, buf =>
    let needed := s.length
    if needed ≥ buf.size - buf.pos then
      if buf.maxsize ≠ 0 ∧
          (buf.size ≥ buf.maxsize ∨ buf.pos + needed ≥ buf.maxsize) then
        (buf, true)
      else
        let n0 := grow_newsize needed buf.pos (2 * buf.size)
        let newsize := if buf.maxsize ≠ 0 ∧ n0 > buf.maxsize then buf.maxsize
          else n0
        if allocOk then appendf_loop s allocOk fuel { buf with size := newsize }
        else (buf, true)
    else
      ({ buf with
         data := fun i =>
           if buf.pos ≤ i ∧ i < buf.pos + (s.length + 1) then
             (s ++ [0]).getD (i - buf.pos) 0
           else buf.data i
         pos := buf.pos + s.length }, false)

/-- `appendf(output, "%s", s)`. -/
def appendf_str (buf : OutputData) (s : List Nat) (allocOk : Bool) :
    OutputData × Bool :=
  appendf_loop s allocOk 2 buf

/-- Sandbox lifecycle states (from `lua_sandbox.h`, which is not in the
tree; per the spec the states are UNINITIALIZED, RUNNING, TERMINATED). -/
inductive SandboxState where
  | uninitialized
  | running
  | terminated
deriving DecidableEq

/-- The full `usage` matrix: one `(LIMIT, CURRENT, MAXIMUM)` row per
resource (`LSB_UT_MEMORY`, `LSB_UT_INSTRUCTION`, `LSB_UT_OUTPUT`). -/
structure UsageTable where
  mem : Quota
  inst : Quota
  out : Quota
deriving DecidableEq

/-- The slice of `lua_sandbox` that `sandbox_terminate` touches or must
leave alone: the engine handle (`lua`, modelled by whether it is
non-null), the lifecycle state, and the usage matrix. -/
structure Sandbox where
  luaOpen : Bool
  state : SandboxState
  usage : UsageTable
deriving DecidableEq

/-- `sandbox_terminate`: close the engine handle when open, zero
`CURRENT[MEMORY]`, and set the state to TERMINATED; nothing else is
written. -/
def sandbox_terminate (sb : Sandbox) : Sandbox :=
  { sb with
    luaOpen := false
    usage :=
      { sb.usage with mem := { sb.usage.mem with current := 0 } }
    state := .terminated }

/-- Engine values as far as the module machinery observes them (tables
and other values are opaque, identified by an id; `nil` is represented by
`Option.none` at use sites). -/
inductive RVal where
  | boolean (b : Bool)
  | table (id : Nat)
  | num (x : Nat)
  | str (s : String)
deriving DecidableEq

/-- A Lua table as seen by the library gate: a field map plus an optional
metatable. -/
inductive LTable where
  | mk : (String → Option RVal) → Option LTable → LTable

/-- Field map of a table. -/
def LTable.fields : LTable → (String → Option RVal)
  | .mk f _ => f

/-- Metatable of a table. -/
def LTable.meta : LTable → Option LTable
  | .mk _ m => m

/-- The fresh empty table `lua_newtable` pushes (no fields, no
metatable): the preservation marker. -/
def emptyTable : LTable := .mk (fun _ => none) none

/-- Clearing loop of `load_library`: `lua_pushnil` / `lua_setfield` for
every name in the denylist. -/
def clearFields (f : String → Option RVal) (disable : List String) :
    String → Option RVal :=
  fun k => if k ∈ disable then none else f k

/-- `load_library`: run the loader (its resulting table is the argument
`lib`; for `table = ""` the loader's table is the globals table itself).
For the base table the denied names are cleared from the globals
namespace; for any other table they are cleared from the table and a
fresh empty metatable is attached.  Returns the updated globals map and
the stack-top table. -/
def load_library (glob : String → Option RVal) (table : String)
    (lib : LTable) (disable : List String) :
    (String → Option RVal) × LTable :=
  if table = "" then
    (clearFields glob disable, lib)
  else
    (glob, .mk (clearFields lib.fields disable) (some emptyTable))

/-- The built-in library names dispatched by `require_library`.  The
names `circular_buffer`, `bloom_filter`, `hyperloglog` come from
`lsb_*_table` constants in headers absent from the tree; modelled from
the spec's built-in library list (§4.6). -/
def builtins : List String :=
  ["string", "math", "table", "os", "circular_buffer", "bloom_filter",
   "hyperloglog", "lpeg", "pb", "cjson"]

/-- `isalnum(c) || c == '_'` for the default C locale, on the characters
of the module name. -/
def validChar (c : Char) : Bool :=
  (48 ≤ c.toNat ∧ c.toNat ≤ 57) ∨ (65 ≤ c.toNat ∧ c.toNat ≤ 90) ∨
    (97 ≤ c.toNat ∧ c.toNat ≤ 122) ∨ c.toNat = 95

/-- The name-validation loop of `require_library`. -/
def validName (name : String) : Bool :=
  name.data.all validChar

/-- `MAX_PATH` from `lua_sandbox_private.c`. -/
def MAX_PATH : Nat := 255

/-- The engine state `require_library` reads and writes: the
`package.loaded` cache, the configured module root (`lsb->require_path`,
`none` when external modules are disabled), and the globals table (for
the `cjson` re-export). -/
structure ReqState where
  loaded : String → Option RVal
  require_path : Option String
  globals : String → Option RVal

/-- Result of one `require_library` call: the engine state after the
call (mutations to `package.loaded` persist even when a Lua error is
raised), the returned value or the raised error message, whether a
built-in loader ran, and the file path handed to `luaL_dofile` (if
any). -/
structure ReqResult where
  state : ReqState
  result : Except String RVal
  loaderRan : Bool
  fsPath : Option String

/-- Point update of a string-keyed map (`lua_setfield`). -/
def setField (m : String → Option RVal) (k : String) (v : Option RVal) :
    String → Option RVal :=
  fun n => if n = k then v else m n

/-- `require_library`.  Oracles for collaborator code that is not in the
tree: `loaders name` is the table value a built-in loader leaves on the
stack (after `load_library` gating), and `dofile path` is the outcome of
`luaL_dofile` on an external module file (per spec §4.7 a successful run
leaves a single value on the stack).  `delim` is `PATH_DELIMITER`
(`'\\'` on Windows, `'/'` elsewhere).  The `package` / `package.loaded`
existence checks of the C code are implicit in `ReqState` always having
the cache. -/
def require_library (delim : Char) (loaders : String → RVal)
    (dofile : String → Except String RVal) (st : ReqState)
    (name : String) : ReqResult :=
  match st.loaded name with
  | some v =>
    { state := st, result := .ok v, loaderRan := false, fsPath := none }
  | none =>
    -- mark it as loaded to prevent a dependency loop
    let st1 : ReqState :=
      { st with loaded := setField st.loaded name (some (.boolean true)) }
    if name ∈ builtins then
      let v := loaders name
      let st2 : ReqState :=
        if name = "cjson" then
          { st1 with globals := setField st1.globals name (some v) }
        else st1
      { state := { st2 with loaded := setField st2.loaded name (some v) }
        result := .ok v, loaderRan := true, fsPath := none }
    else
      match st.require_path with
      | none =>
        { state := st1
          result := .error "require_library() external modules are disabled"
          loaderRan := false, fsPath := none }
      | some root =>
        if validName name then
          -- snprintf(fn, MAX_PATH, "%s%c%s.lua", ...) returns the
          -- untruncated length
          if root.length + 1 + name.length + 4 ≥ MAX_PATH then
            { state := st1
              result := .error "require_path exceeded 255"
              loaderRan := false, fsPath := none }
          else
            let fn := root ++ String.singleton delim ++ name ++ ".lua"
            match dofile fn with
            | .error e =>
              { state := st1, result := .error e, loaderRan := false
                fsPath := some fn }
            | .ok v =>
              { state := { st1 with loaded := setField st1.loaded name (some v) }
                result := .ok v, loaderRan := false, fsPath := some fn }
        else
          { state := st1
            result := .error ("invalid module name '" ++ name ++ "'")
            loaderRan := false, fsPath := none }

/-- Guest values as `output()` dispatches on them (`lua_type`): numbers,
strings (byte lists), nil, booleans, tables (opaque ids, serialized by
the JSON collaborator), circular-buffer userdata, and everything else
(other userdata, functions, threads, ...), which the switch ignores. -/
inductive LuaValue where
  | num (x : Nat)
  | str (s : List Nat)
  | nil
  | boolean (b : Bool)
  | table (id : Nat)
  | cbuf (id : Nat)
  | other

/-- Outcome of a collaborator serializer: the new buffer, the (possibly
updated) `lsb->error_message` slot, and the failure flag. -/
def SerOutcome := OutputData × String × Bool

/-- Oracles for the serializer collaborators that live outside this
tree (`lua_serialize.c`, `lua_serialize_json.c`,
`lua_circular_buffer.c`), plus the host allocator success flags the
in-tree append primitives consume. -/
structure Collaborators where
  serialize_double : Nat → OutputData → String → SerOutcome
  serialize_kvp_as_json : Nat → OutputData → String → SerOutcome
  output_circular_buffer : Nat → OutputData → String → SerOutcome
  jsonMallocOk : Bool
  allocOk : Bool

/-- The byte list of the literal C string `"nil"`. -/
def strNil : List Nat := [110, 105, 108]

/-- The byte list of `"true"`. -/
def strTrue : List Nat := [116, 114, 117, 101]

/-- The byte list of `"false"`. -/
def strFalse : List Nat := [102, 97, 108, 115, 101]

/-- One arm of the `switch (lua_type(lua, i))` in `output()`: processes a
single argument, returning the new buffer, error slot, and whether the
append failed (`result = 1`). -/
def processArg (co : Collaborators) (v : LuaValue) (buf : OutputData)
    (em : String) : OutputData × String × Bool :=
  match v with
  | .num x => co.serialize_double x buf em
  | .str s =>
    let r := appendf_str buf s co.allocOk
    (r.1, em, r.2)
  | .nil =>
    let r := appends buf strNil co.allocOk
    (r.1, em, r.2)
  | .boolean b =>
    let r := appendf_str buf (if b then strTrue else strFalse) co.allocOk
    (r.1, em, r.2)
  | .table id =>
    -- malloc of the cycle-detection scratch array (64 table_refs)
    if co.jsonMallocOk then
      let r := co.serialize_kvp_as_json id buf em
      if r.2.2 then (r.1, r.2.1, true)
      else
        let r2 := appendc r.1 10 co.allocOk
        (r2.1, r.2.1, r2.2)
    else (buf, "json table serialization out of memory", true)
  | .cbuf id => co.output_circular_buffer id buf em
  | .other => (buf, em, false)

/-- The `for (i = 1; result == 0 && i <= n; ++i)` loop of `output()`:
left-to-right, stopping at the first failing append. -/
def outputLoop (co : Collaborators) :
    List LuaValue → OutputData → String → OutputData × String × Bool
  | [], buf, em => (buf, em, false)
  | v :: rest, buf, em =>
    let r := processArg co v buf em
    if r.2.2 then (r.1, r.2.1, true) else outputLoop co rest r.1 r.2.1

/-- The slice of `lua_sandbox` the guest-callable `output()` touches:
the output buffer, the error-message slot, and the OUTPUT quota row. -/
structure OutSandbox where
  buf : OutputData
  errMsg : String
  outUsage : Quota

/-- The guest-callable `output(...)`: raises (second component
`some msg`) on zero arguments; otherwise runs the dispatch loop, always
updates the output statistics from `pos`, and on a failed append raises
`"output_limit exceeded"` when the error slot is empty and the stored
message otherwise. -/
def output_call (co : Collaborators) (sb : OutSandbox)
    (args : List LuaValue) : OutSandbox × Option String :=
  if args.length = 0 then
    (sb, some "output() must have at least one argument")
  else
    let r := outputLoop co args sb.buf sb.errMsg
    let sb1 : OutSandbox :=
      { buf := r.1, errMsg := r.2.1
        outUsage := update_output_stats r.1 sb.outUsage }
    if r.2.2 then
      (sb1, some (if r.2.1 = "" then "output_limit exceeded" else r.2.1))
    else (sb1, none)

/-- The state observed by the quota-invariant claim: the MEMORY and
OUTPUT quota rows and the output buffer (INSTRUCTION counters are never
written by the functions in this file's scope). -/
structure SbState where
  mem : Quota
  out : Quota
  buf : OutputData

/-- The quota invariants of spec §3 for one resource row. -/
def QuotaInv (q : Quota) : Prop :=
  q.current ≤ q.maximum ∧ (q.limit ≠ 0 → q.current ≤ q.limit)

/-- Well-formedness of the output buffer (spec §3 invariants plus the
bounds under which the C `size_t` / `unsigned` arithmetic is exact). -/
def BufWf (b : OutputData) : Prop :=
  b.pos ≤ b.size ∧ (b.maxsize ≠ 0 → b.size ≤ b.maxsize) ∧ 0 < b.size

/-- The full inductive invariant: quota invariants for both rows, buffer
well-formedness, the counters within `unsigned` range (they are 32-bit
fields), and the construction-time link `LIMIT[OUTPUT] = maxsize`
(`lua_sandbox.c`, not in the tree, sets both from the configured
`output_limit`; modelled from the spec §6). -/
def SbInv (s : SbState) : Prop :=
  QuotaInv s.mem ∧ QuotaInv s.out ∧ BufWf s.buf ∧
    s.mem.current < U32 ∧ s.mem.maximum < U32 ∧ s.mem.limit < U32 ∧
    s.out.current < U32 ∧ s.out.maximum < U32 ∧
    s.out.limit = s.buf.maxsize ∧ s.buf.maxsize < U32

/-- One observable step of a sandbox lifetime, as generated by the code
in this file: an allocation-interposer call, an append primitive inside
`output()` (a failed append leaves the buffer fields unchanged, hence
the successful-result hypotheses), an output-statistics update, or a
termination (the `usage` effect of `sandbox_terminate`).  The side
conditions on the allocator step record that the engine only frees or
resizes blocks it was charged for (`osize` is the true old size, so it
never exceeds the charged total) and that the 32-bit counters do not
overflow. -/
inductive SbStep : SbState → SbState → Prop where
  | alloc (s : SbState) (osize nsize : Nat) (rok : Bool)
      (hfree : nsize = 0 → osize ≤ s.mem.current)
      (halloc : 0 < nsize → osize ≤ s.mem.current + nsize ∧
        s.mem.current + nsize - osize < U32)
      (ho : osize < U64) (hn : nsize < U64) :
      SbStep s { s with mem := (memory_manager s.mem osize nsize rok).usage }
  | apstr (s : SbState) (str : List Nat) (aok : Bool) (b' : OutputData)
      (h : appends s.buf str aok = (b', false)) :
      SbStep s { s with buf := b' }
  | apchr (s : SbState) (c : Nat) (aok : Bool) (b' : OutputData)
      (h : appendc s.buf c aok = (b', false)) :
      SbStep s { s with buf := b' }
  | apfmt (s : SbState) (str : List Nat) (aok : Bool) (b' : OutputData)
      (h : appendf_str s.buf str aok = (b', false)) :
      SbStep s { s with buf := b' }
  | stats (s : SbState) :
      SbStep s { s with out := update_output_stats s.buf s.out }
  | term (s : SbState) :
      SbStep s { s with mem := { s.mem with current := 0 } }

/-! ## Arithmetic helpers -/

lemma wrap32_of_lt {n : Nat} (h : n < U32) : wrap32 n = n := by
  simp only [wrap32]
  exact Nat.mod_eq_of_lt h

lemma mm_free_current (cur osize : Nat) (hcur : cur < U32)
    (h : osize ≤ cur) : wrap32 (cur + (U32 - wrap32 osize)) = cur - osize := by
  simp only [wrap32, U32] at *
  omega

lemma mm_alloc_projected (cur osize nsize : Nat) (ho : osize < U64)
    (h1 : osize ≤ cur + nsize) (h2 : cur + nsize - osize < U32) :
    wrap32 (wrap64 (wrap64 (cur + nsize) + (U64 - wrap64 osize))) =
      cur + nsize - osize := by
  simp only [wrap32, wrap64, U32, U64] at *
  omega

lemma if_gt_eq_max (a b : Nat) : (if b > a then b else a) = max a b := by
  rw [Nat.max_def]
  split_ifs <;> omega

/-! ## C1: the allocation interposer contract -/

/-- C1: for `new_size > 0` the interposer computes
`projected = CURRENT + new_size - old_size`; if the memory limit is
nonzero and `projected` exceeds it, it returns null without calling
`realloc` and without touching any counter; otherwise it reallocates,
setting `CURRENT := projected` and `MAXIMUM := max MAXIMUM projected` on
success, and returning null with all counters unchanged on allocator
failure.  For `new_size = 0` it frees the pointer, subtracts `old_size`
from `CURRENT`, and returns null.  (Hypotheses keep the `unsigned` /
`size_t` modular arithmetic of the source exact.) -/
theorem C1_memory_manager_contract (u : Quota) (osize nsize : Nat)
    (rok : Bool) (hcur : u.current < U32)
    (ho : osize < U64)
    (hfree : nsize = 0 → osize ≤ u.current)
    (halloc : 0 < nsize → osize ≤ u.current + nsize ∧
      u.current + nsize - osize < U32) :
    (nsize = 0 →
      memory_manager u osize nsize rok =
        { retNonNull := false
          usage := { u with current := u.current - osize }
          reallocCalled := false, freeCalled := true }) ∧
    (0 < nsize →
      (u.limit ≠ 0 ∧ u.limit < u.current + nsize - osize →
        memory_manager u osize nsize rok =
          { retNonNull := false, usage := u, reallocCalled := false
            freeCalled := false }) ∧
      ((u.limit = 0 ∨ u.current + nsize - osize ≤ u.limit) →
        (rok = true →
          memory_manager u osize nsize rok =
            { retNonNull := true
              usage :=
                { u with
                  current := u.current + nsize - osize
                  maximum := max u.maximum (u.current + nsize - osize) }
              reallocCalled := true, freeCalled := false }) ∧
        (rok = false →
          memory_manager u osize nsize rok =
            { retNonNull := false, usage := u, reallocCalled := true
              freeCalled := false }))) := by
  constructor
  · intro h0
    simp only [memory_manager, if_pos h0]
    rw [mm_free_current u.current osize hcur (hfree h0)]
  · intro hpos
    have hne : ¬ nsize = 0 := by omega
    have hproj := mm_alloc_projected u.current osize nsize ho
      (halloc hpos).1 (halloc hpos).2
    simp only [memory_manager, if_neg hne, hproj]
    constructor
    · rintro ⟨hl0, hgt⟩
      rw [if_neg (by omega)]
    · intro hok
      have hcond : u.limit = 0 ∨ u.current + nsize - osize ≤ u.limit := hok
      rw [if_pos hcond]
      constructor
      · intro hr; subst hr
        rw [if_pos rfl]
        rw [if_gt_eq_max]
      · intro hr; subst hr
        rfl

/-- Closed witness for C1 at a concrete input. -/
theorem C1_memory_manager_contract_witness :
    memory_manager ⟨100, 50, 60⟩ 10 30 true =
      { retNonNull := true, usage := ⟨100, 70, 70⟩, reallocCalled := true
        freeCalled := false } := by
  have h := (((C1_memory_manager_contract ⟨100, 50, 60⟩ 10 30 true
    (by decide) (by decide) (by decide) (by decide)).2
    (by decide)).2 (by decide)).1 rfl
  rw [h]
  decide

/-! ## C9: the frame of `sandbox_terminate` -/

/-- C9: `sandbox_terminate` sets the state to TERMINATED, releases the
engine handle, and zeroes `CURRENT[MEMORY]`, leaving
`LIMIT[MEMORY]`, `MAXIMUM[MEMORY]` and all instruction and output
counters unchanged. -/
theorem C9_sandbox_terminate_frame (sb : Sandbox) :
    (sandbox_terminate sb).state = SandboxState.terminated ∧
    (sandbox_terminate sb).luaOpen = false ∧
    (sandbox_terminate sb).usage.mem.current = 0 ∧
    (sandbox_terminate sb).usage.mem.limit = sb.usage.mem.limit ∧
    (sandbox_terminate sb).usage.mem.maximum = sb.usage.mem.maximum ∧
    (sandbox_terminate sb).usage.inst = sb.usage.inst ∧
    (sandbox_terminate sb).usage.out = sb.usage.out :=
  ⟨rfl, rfl, rfl, rfl, rfl, rfl, rfl⟩

/-! ## C8: the library gate -/

/-- C8: for the root globals table (`name = ""`) `load_library` clears
every denylisted symbol in the globals namespace and attaches no
metatable (the stack-top table is returned untouched); for every other
library name it clears the denylisted symbols in the library table and
attaches a fresh empty table as its metatable, leaving the globals
untouched. -/
theorem C8_load_library_gate (glob : String → Option RVal) (table : String)
    (lib : LTable) (disable : List String) :
    (table = "" →
      (load_library glob table lib disable).2 = lib ∧
      (∀ d ∈ disable, (load_library glob table lib disable).1 d = none) ∧
      (∀ k, k ∉ disable →
        (load_library glob table lib disable).1 k = glob k)) ∧
    (table ≠ "" →
      (load_library glob table lib disable).1 = glob ∧
      (∀ d ∈ disable,
        ((load_library glob table lib disable).2).fields d = none) ∧
      (∀ k, k ∉ disable →
        ((load_library glob table lib disable).2).fields k = lib.fields k) ∧
      ((load_library glob table lib disable).2).meta = some emptyTable) := by
  constructor
  · intro h
    refine ⟨?_, fun d hd => ?_, fun k hk => ?_⟩ <;>
      simp [load_library, h, clearFields, *]
  · intro h
    refine ⟨?_, fun d hd => ?_, fun k hk => ?_, ?_⟩ <;>
      simp [load_library, h, clearFields, LTable.fields, LTable.meta, *]

/-- Sample globals map for witnesses. -/
def sampleGlob : String → Option RVal := fun _ => some (RVal.num 1)

/-- Sample library table for witnesses. -/
def sampleLib : LTable :=
  LTable.mk (fun _ => some (RVal.num 2)) none

/-- Closed witness for C8 covering both branches. -/
theorem C8_load_library_gate_witness :
    ((load_library sampleGlob "" sampleLib ["print"]).1 "print" = none ∧
      (load_library sampleGlob "" sampleLib ["print"]).2 = sampleLib) ∧
    ((load_library sampleGlob "os" sampleLib ["execute"]).2.fields "execute"
        = none ∧
      (load_library sampleGlob "os" sampleLib ["execute"]).2.meta =
        some emptyTable) := by
  have h1 := (C8_load_library_gate sampleGlob "" sampleLib ["print"]).1 rfl
  have h2 := (C8_load_library_gate sampleGlob "os" sampleLib ["execute"]).2
    (by decide)
  exact ⟨⟨h1.2.1 "print" (by simp), h1.1⟩,
    ⟨h2.2.1 "execute" (by simp), h2.2.2.2⟩⟩

/-! ## Output-buffer lemmas -/

lemma realloc_output_fst_pos (buf : OutputData) (n : Nat) (aok : Bool) :
    (realloc_output buf n aok).1.pos = buf.pos := by
  simp only [realloc_output]
  split_ifs <;> rfl

lemma realloc_output_fst_data (buf : OutputData) (n : Nat) (aok : Bool) :
    (realloc_output buf n aok).1.data = buf.data := by
  simp only [realloc_output]
  split_ifs <;> rfl

lemma realloc_output_fst_maxsize (buf : OutputData) (n : Nat) (aok : Bool) :
    (realloc_output buf n aok).1.maxsize = buf.maxsize := by
  simp only [realloc_output]
  split_ifs <;> rfl

lemma getD_append_zero (s : List Nat) :
    (s ++ [0]).getD s.length 0 = 0 := by
  induction s with
  | nil => rfl
  | cons a t ih =>
    simp only [List.cons_append, List.length_cons, List.getD_cons_succ]
    exact ih

/-! ## C6: `appends` / `appendc` position and terminator contract -/

/-- C6: on a buffer with `pos ≤ size`, a successful `appends s` advances
`pos` by exactly `len s` and leaves the terminating zero byte at
`data[pos]` (written but not counted), a successful `appendc` advances
`pos` by exactly 1 with `data[pos] = 0`, and on failure (ceiling reached
or allocation failure) `pos` is unchanged. -/
theorem C6_append_contract (buf : OutputData) (s : List Nat) (c : Nat)
    (aok : Bool) (hps : buf.pos ≤ buf.size) (hz : 0 ∉ s) :
    ((appends buf s aok).2 = false →
      (appends buf s aok).1.pos = buf.pos + s.length ∧
      (appends buf s aok).1.data ((appends buf s aok).1.pos) = 0) ∧
    ((appends buf s aok).2 = true →
      (appends buf s aok).1.pos = buf.pos) ∧
    ((appendc buf c aok).2 = false →
      (appendc buf c aok).1.pos = buf.pos + 1 ∧
      (appendc buf c aok).1.data ((appendc buf c aok).1.pos) = 0) ∧
    ((appendc buf c aok).2 = true →
      (appendc buf c aok).1.pos = buf.pos) := by
  have hwrite : ∀ b : OutputData,
      (writeStr b s).pos = b.pos + s.length ∧
      (writeStr b s).data ((writeStr b s).pos) = 0 := by
    intro b
    refine ⟨rfl, ?_⟩
    have h1 : b.pos ≤ b.pos + s.length ∧
        b.pos + s.length < b.pos + (s.length + 1) := by omega
    simp only [writeStr, if_pos h1, Nat.add_sub_cancel_left]
    exact getD_append_zero s
  refine ⟨?_, ?_, ?_, ?_⟩
  · intro hs
    unfold appends at hs ⊢
    by_cases h1 : buf.size - buf.pos < s.length + 1
    · rw [if_pos h1] at hs ⊢
      by_cases h2 : (realloc_output buf (s.length + 1) aok).2
      · rw [if_pos h2] at hs
        simp at hs
      · rw [if_neg h2] at hs ⊢
        refine ⟨?_, (hwrite _).2⟩
        rw [(hwrite _).1, realloc_output_fst_pos]
    · rw [if_neg h1] at hs ⊢
      exact ⟨(hwrite buf).1, (hwrite buf).2⟩
  · intro hs
    unfold appends at hs ⊢
    by_cases h1 : buf.size - buf.pos < s.length + 1
    · rw [if_pos h1] at hs ⊢
      by_cases h2 : (realloc_output buf (s.length + 1) aok).2
      · rw [if_pos h2] at hs ⊢
        exact realloc_output_fst_pos buf (s.length + 1) aok
      · rw [if_neg h2] at hs
        simp at hs
    · rw [if_neg h1] at hs
      simp at hs
  · intro hs
    unfold appendc at hs ⊢
    by_cases h1 : buf.size - buf.pos < 2
    · rw [if_pos h1] at hs ⊢
      by_cases h2 : (realloc_output buf 2 aok).2
      · rw [if_pos h2] at hs
        simp at hs
      · rw [if_neg h2] at hs ⊢
        constructor
        · show (realloc_output buf 2 aok).1.pos + 1 = buf.pos + 1
          rw [realloc_output_fst_pos]
        · show (if (realloc_output buf 2 aok).1.pos + 1 =
                  (realloc_output buf 2 aok).1.pos then c
              else if (realloc_output buf 2 aok).1.pos + 1 =
                  (realloc_output buf 2 aok).1.pos + 1 then 0
              else (realloc_output buf 2 aok).1.data
                ((realloc_output buf 2 aok).1.pos + 1)) = 0
          rw [if_neg (by omega), if_pos rfl]
    · rw [if_neg h1] at hs ⊢
      constructor
      · rfl
      · show (if buf.pos + 1 = buf.pos then c
            else if buf.pos + 1 = buf.pos + 1 then 0
            else buf.data (buf.pos + 1)) = 0
        rw [if_neg (by omega), if_pos rfl]
  · intro hs
    unfold appendc at hs ⊢
    by_cases h1 : buf.size - buf.pos < 2
    · rw [if_pos h1] at hs ⊢
      by_cases h2 : (realloc_output buf 2 aok).2
      · rw [if_pos h2] at hs ⊢
        exact realloc_output_fst_pos buf 2 aok
      · rw [if_neg h2] at hs
        simp at hs
    · rw [if_neg h1] at hs
      simp at hs

/-- Sample output buffer for witnesses: 8 bytes allocated, ceiling 8,
contents initially nonzero so the written terminator is observable. -/
def sampleBuf : OutputData :=
  { data := fun _ => 7, pos := 0, size := 8, maxsize := 8 }

/-- Closed witness for C6. -/
theorem C6_append_contract_witness :
    (appends sampleBuf [97, 98] true).1.pos = 0 + 2 ∧
    (appends sampleBuf [97, 98] true).1.data 2 = 0 ∧
    (appendc sampleBuf 106 true).1.pos = 0 + 1 ∧
    (appendc sampleBuf 106 true).1.data 1 = 0 := by
  have h := C6_append_contract sampleBuf [97, 98] 106 true (by decide)
    (by decide)
  have h1 := h.1 rfl
  have h2 := h.2.2.1 rfl
  exact ⟨h1.1, by rw [show (2 : Nat) = (appends sampleBuf [97, 98] true).1.pos
      from h1.1.symm]; exact h1.2,
    h2.1, by rw [show (1 : Nat) = (appendc sampleBuf 106 true).1.pos
      from h2.1.symm]; exact h2.2⟩

/-! ## C4 and C10: the guest-callable `output(...)` -/

/-- Splitting lemma for the dispatch loop: processing `l1 ++ l2` first
processes `l1` and stops there if it failed. -/
lemma outputLoop_append (co : Collaborators) (l1 l2 : List LuaValue)
    (b : OutputData) (e : String) :
    outputLoop co (l1 ++ l2) b e =
      (if (outputLoop co l1 b e).2.2 then outputLoop co l1 b e
       else outputLoop co l2 (outputLoop co l1 b e).1
         (outputLoop co l1 b e).2.1) := by
  induction l1 generalizing b e with
  | nil => simp [outputLoop]
  | cons v rest ih =>
    simp only [List.cons_append, outputLoop]
    by_cases h : (processArg co v b e).2.2
    · simp [h]
    · simp only [if_neg h, ih]
      exact ih _ _

/-- C4: whenever a per-argument append inside `output(...)` fails, the
call raises a guest error whose message is exactly
`"output_limit exceeded"` when the sandbox error slot is empty and the
stored (more specific) message otherwise; the output statistics are
updated from the buffer `pos` in both cases. -/
theorem C4_output_failure_message (co : Collaborators) (sb : OutSandbox)
    (args : List LuaValue)
    (hfail : (outputLoop co args sb.buf sb.errMsg).2.2 = true) :
    (output_call co sb args).2 =
      some (if (outputLoop co args sb.buf sb.errMsg).2.1 = "" then
        "output_limit exceeded"
      else (outputLoop co args sb.buf sb.errMsg).2.1) ∧
    (output_call co sb args).1.errMsg =
      (outputLoop co args sb.buf sb.errMsg).2.1 ∧
    (output_call co sb args).1.buf.pos =
      (outputLoop co args sb.buf sb.errMsg).1.pos ∧
    (output_call co sb args).1.outUsage.current =
      wrap32 ((output_call co sb args).1.buf.pos) ∧
    (output_call co sb args).1.outUsage.maximum =
      max sb.outUsage.maximum ((output_call co sb args).1.outUsage.current) := by
  have hne : ¬ args.length = 0 := by
    intro h
    rw [List.length_eq_zero] at h
    subst h
    simp [outputLoop] at hfail
  simp only [output_call, if_neg hne, hfail, if_true]
  refine ⟨by trivial, by trivial, by trivial, by trivial, ?_⟩
  show (if wrap32 (outputLoop co args sb.buf sb.errMsg).1.pos >
        sb.outUsage.maximum then
      wrap32 (outputLoop co args sb.buf sb.errMsg).1.pos
    else sb.outUsage.maximum) =
    max sb.outUsage.maximum (wrap32 (outputLoop co args sb.buf sb.errMsg).1.pos)
  exact if_gt_eq_max _ _

/-- Sample collaborators for witnesses: all external serializers succeed
without touching anything; host allocations succeed. -/
def sampleCo : Collaborators :=
  { serialize_double := fun _ b e => (b, e, false)
    serialize_kvp_as_json := fun _ b e => (b, e, false)
    output_circular_buffer := fun _ b e => (b, e, false)
    jsonMallocOk := true
    allocOk := true }

/-- Sample sandbox for `output()` witnesses: 1-byte buffer with ceiling
1, so an append of `"nil"` fails; empty error slot. -/
def sampleOutSb : OutSandbox :=
  { buf := { data := fun _ => 0, pos := 0, size := 1, maxsize := 1 }
    errMsg := ""
    outUsage := { limit := 1, current := 0, maximum := 0 } }

/-- Closed witness for C4. -/
theorem C4_output_failure_message_witness :
    (outputLoop sampleCo [LuaValue.nil] sampleOutSb.buf
      sampleOutSb.errMsg).2.2 = true ∧
    (output_call sampleCo sampleOutSb [LuaValue.nil]).2 =
      some "output_limit exceeded" := by
  have h := C4_output_failure_message sampleCo sampleOutSb [LuaValue.nil]
    (by rfl)
  refine ⟨rfl, ?_⟩
  rw [h.1]
  rfl

/-- C10: `output()` with zero arguments raises
`"output() must have at least one argument"` and leaves the whole
sandbox (in particular the output buffer) untouched; with a non-empty
argument list the arguments are processed left to right and processing
stops at the first argument whose append fails (later arguments have no
effect). -/
theorem C10_output_zero_args_and_order (co : Collaborators)
    (sb : OutSandbox) :
    (output_call co sb [] =
      (sb, some "output() must have at least one argument")) ∧
    (∀ (args1 : List LuaValue) (v : LuaValue) (args2 : List LuaValue)
      (b1 : OutputData) (em1 : String),
      outputLoop co args1 sb.buf sb.errMsg = (b1, em1, false) →
      (processArg co v b1 em1).2.2 = true →
      outputLoop co (args1 ++ v :: args2) sb.buf sb.errMsg =
        ((processArg co v b1 em1).1, (processArg co v b1 em1).2.1, true)) := by
  constructor
  · rfl
  · intro args1 v args2 b1 em1 h1 h2
    rw [outputLoop_append, h1]
    simp only [if_neg (by simp : ¬ ((b1, em1, false) : OutputData × String × Bool).2.2 = true)]
    simp [outputLoop, h2]

/-- Closed witness for C10: a successful no-op argument, then a failing
`nil` append; the trailing argument is never processed. -/
theorem C10_output_zero_args_and_order_witness :
    (output_call sampleCo sampleOutSb []).2 =
      some "output() must have at least one argument" ∧
    outputLoop sampleCo
        ([LuaValue.other] ++ LuaValue.nil :: [LuaValue.boolean true])
        sampleOutSb.buf sampleOutSb.errMsg =
      ((processArg sampleCo LuaValue.nil sampleOutSb.buf "").1,
        (processArg sampleCo LuaValue.nil sampleOutSb.buf "").2.1, true) := by
  have h := C10_output_zero_args_and_order sampleCo sampleOutSb
  refine ⟨?_, ?_⟩
  · rw [h.1]
  · exact h.2 [LuaValue.other] LuaValue.nil [LuaValue.boolean true]
      sampleOutSb.buf "" rfl rfl

/-! ## `require_library` lemmas -/

lemma require_library_cached (delim : Char) (loaders : String → RVal)
    (dofile : String → Except String RVal) (st : ReqState) (name : String)
    (v : RVal) (h : st.loaded name = some v) :
    require_library delim loaders dofile st name =
      { state := st, result := .ok v, loaderRan := false, fsPath := none } := by
  simp only [require_library, h]

lemma require_library_ok_loaded (delim : Char) (loaders : String → RVal)
    (dofile : String → Except String RVal) (st : ReqState) (name : String)
    (v : RVal)
    (hv : (require_library delim loaders dofile st name).result = .ok v) :
    (require_library delim loaders dofile st name).state.loaded name =
      some v := by
  cases h : st.loaded name with
  | some w =>
    rw [require_library_cached delim loaders dofile st name w h] at hv ⊢
    simp only at hv
    cases hv
    exact h
  | none =>
    by_cases hb : name ∈ builtins
    · simp only [require_library, h, if_pos hb] at hv ⊢
      cases hv
      simp [setField]
    · cases hp : st.require_path with
      | none => simp [require_library, h, if_neg hb, hp] at hv
      | some root =>
        by_cases hval : validName name
        · by_cases hlen : root.length + 1 + name.length + 4 ≥ MAX_PATH
          · simp [require_library, h, if_neg hb, hp, hval, hlen] at hv
          · cases hd : dofile (root ++ String.singleton delim ++ name
                ++ ".lua") with
            | error e =>
              simp [require_library, h, if_neg hb, hp, hval, hlen, hd] at hv
            | ok w =>
              simp only [require_library, h, if_neg hb, hp, if_pos hval,
                if_neg hlen, hd] at hv ⊢
              cases hv
              simp [setField]
        · simp [require_library, h, if_neg hb, hp, hval] at hv

/-! ## C5: `require` cache idempotence -/

/-- C5: if `package.loaded[name]` holds a non-nil value then `require`
returns it without running a loader or touching the filesystem; after
any successful `require(name)` the returned value is stored at
`package.loaded[name]`, so a second `require(name)` returns the same
value from the cache; and during a load of an uncached name the sentinel
`true` is inserted at `package.loaded[name]` (observable in the final
state of any failing load). -/
theorem C5_require_cache_idempotent (delim : Char) (loaders : String → RVal)
    (dofile : String → Except String RVal) (st : ReqState) (name : String) :
    (∀ v, st.loaded name = some v →
      require_library delim loaders dofile st name =
        { state := st, result := .ok v, loaderRan := false
          fsPath := none }) ∧
    (∀ v, (require_library delim loaders dofile st name).result = .ok v →
      (require_library delim loaders dofile st name).state.loaded name =
        some v ∧
      require_library delim loaders dofile
          (require_library delim loaders dofile st name).state name =
        { state := (require_library delim loaders dofile st name).state
          result := .ok v, loaderRan := false, fsPath := none }) ∧
    (∀ e, st.loaded name = none →
      (require_library delim loaders dofile st name).result = .error e →
      (require_library delim loaders dofile st name).state.loaded name =
        some (RVal.boolean true)) := by
  refine ⟨?_, ?_, ?_⟩
  · intro v h
    exact require_library_cached delim loaders dofile st name v h
  · intro v hv
    have hl := require_library_ok_loaded delim loaders dofile st name v hv
    exact ⟨hl, require_library_cached delim loaders dofile _ name v hl⟩
  · intro e h he
    by_cases hb : name ∈ builtins
    · simp [require_library, h, if_pos hb] at he
    · cases hp : st.require_path with
      | none => simp [require_library, h, if_neg hb, hp, setField]
      | some root =>
        by_cases hval : validName name
        · by_cases hlen : root.length + 1 + name.length + 4 ≥ MAX_PATH
          · simp [require_library, h, if_neg hb, hp, hval, hlen, setField]
          · cases hd : dofile (root ++ String.singleton delim ++ name
                ++ ".lua") with
            | error e2 =>
              simp [require_library, h, if_neg hb, hp, hval, hlen, hd,
                setField]
            | ok w =>
              simp [require_library, h, if_neg hb, hp, hval, hlen, hd] at he
        · simp [require_library, h, if_neg hb, hp, hval, setField]

/-- Sample loader oracle: every built-in loader leaves table 1. -/
def sampleLoaders : String → RVal := fun _ => RVal.table 1

/-- Sample filesystem oracle: every module file evaluates to table 2. -/
def sampleDofile : String → Except String RVal := fun _ => .ok (RVal.table 2)

/-- Engine state with `package.loaded["m"]` populated and no module
root. -/
def sampleReqCached : ReqState :=
  { loaded := fun n => if n = "m" then some (RVal.num 5) else none
    require_path := none
    globals := fun _ => none }

/-- Engine state with an empty cache and no module root. -/
def sampleReqEmpty : ReqState :=
  { loaded := fun _ => none, require_path := none
    globals := fun _ => none }

/-- Engine state with an empty cache and module root `/modules`. -/
def sampleReqPath : ReqState :=
  { loaded := fun _ => none, require_path := some "/modules"
    globals := fun _ => none }

/-- Closed witness for C5: a cache hit returns the cached value with no
loader or filesystem activity, and a failed external load leaves the
sentinel in the cache. -/
theorem C5_require_cache_idempotent_witness :
    require_library '/' sampleLoaders sampleDofile sampleReqCached "m" =
      { state := sampleReqCached, result := .ok (RVal.num 5)
        loaderRan := false, fsPath := none } ∧
    (require_library '/' sampleLoaders sampleDofile sampleReqEmpty
      "x").state.loaded "x" = some (RVal.boolean true) := by
  have h1 := C5_require_cache_idempotent '/' sampleLoaders sampleDofile
    sampleReqCached "m"
  have h2 := C5_require_cache_idempotent '/' sampleLoaders sampleDofile
    sampleReqEmpty "x"
  exact ⟨h1.1 (RVal.num 5) rfl,
    h2.2.2 "require_library() external modules are disabled" rfl rfl⟩

/-! ## C3: invalid-module-name error (corrected) -/

lemma builtins_all_valid : ∀ b ∈ builtins, validName b = true := by decide

/-- Engine state whose `package.loaded` cache already holds a value
under the invalid name `"a-b"`. -/
def sampleReqCachedBad : ReqState :=
  { loaded := fun n => if n = "a-b" then some (RVal.num 3) else none
    require_path := some "/modules"
    globals := fun _ => none }

/-- Counterexample to C3 as stated: `"a-b"` contains the invalid
character `'-'`, yet (a) with no module root configured `require` fails
with `"require_library() external modules are disabled"`, whose first 19
characters are not the prefix `"invalid module name"`, and (b) with the
name already cached in `package.loaded`, `require` does not fail at all
— it returns the cached value. -/
theorem C3_invalid_name_counterexample :
    (require_library '/' sampleLoaders sampleDofile sampleReqEmpty
      "a-b").result =
      Except.error "require_library() external modules are disabled" ∧
    validChar '-' = false ∧ '-' ∈ "a-b".data ∧
    "require_library() external modules are disabled".data.take 19 ≠
      "invalid module name".data ∧
    (require_library '/' sampleLoaders sampleDofile sampleReqCachedBad
      "a-b").result = Except.ok (RVal.num 3) := by
  refine ⟨rfl, by decide, by decide, by decide, rfl⟩

/-- C3 (amended): for every module name containing a character outside
`[A-Za-z0-9_]`, provided the name is not already cached in
`package.loaded` and a module-root path is configured, `require(name)`
fails with exactly `"invalid module name '<name>'"`. -/
theorem C3_invalid_name_amended (delim : Char) (loaders : String → RVal)
    (dofile : String → Except String RVal) (st : ReqState)
    (name root : String) (c : Char)
    (hcache : st.loaded name = none)
    (hpath : st.require_path = some root)
    (hc : c ∈ name.data) (hbad : validChar c = false) :
    (require_library delim loaders dofile st name).result =
      Except.error ("invalid module name '" ++ name ++ "'") := by
  have hnv : validName name = false := by
    simp only [validName, List.all_eq_false]
    exact ⟨c, hc, by simp [hbad]⟩
  have hnb : name ∉ builtins := by
    intro hmem
    have hval := builtins_all_valid name hmem
    rw [hnv] at hval
    exact absurd hval (by simp)
  simp [require_library, hcache, hpath, if_neg hnb, hnv]

/-- Closed witness for the amended C3. -/
theorem C3_invalid_name_amended_witness :
    (require_library '/' sampleLoaders sampleDofile sampleReqPath
      "a-b").result = Except.error "invalid module name 'a-b'" := by
  have h := C3_invalid_name_amended '/' sampleLoaders sampleDofile
    sampleReqPath "a-b" "/modules" '-' rfl rfl (by decide) (by decide)
  rw [h]
  exact congrArg Except.error (by decide)

/-! ## C7: require path construction and the 255 ceiling -/

/-- C7: for an uncached, non-built-in, validly named module with a
configured root, the on-disk path handed to the engine is
`<root><separator><name>.lua` (the separator `delim` is the
platform-dependent `PATH_DELIMITER`), and whenever the full path length
`len(root) + 1 + len(name) + 4` reaches or exceeds the static ceiling
255, `require` fails with `"require_path exceeded 255"` without touching
the filesystem. -/
theorem C7_require_path_build (delim : Char) (loaders : String → RVal)
    (dofile : String → Except String RVal) (st : ReqState)
    (name root : String)
    (hcache : st.loaded name = none) (hnb : name ∉ builtins)
    (hpath : st.require_path = some root)
    (hvalid : validName name = true) :
    (MAX_PATH ≤ root.length + 1 + name.length + 4 →
      (require_library delim loaders dofile st name).result =
        Except.error "require_path exceeded 255" ∧
      (require_library delim loaders dofile st name).fsPath = none) ∧
    (root.length + 1 + name.length + 4 < MAX_PATH →
      (require_library delim loaders dofile st name).fsPath =
        some (root ++ String.singleton delim ++ name ++ ".lua")) := by
  constructor
  · intro hlen
    have hge : root.length + 1 + name.length + 4 ≥ MAX_PATH := hlen
    simp [require_library, hcache, hpath, if_neg hnb, hvalid, hge]
  · intro hlen
    have hge : ¬ root.length + 1 + name.length + 4 ≥ MAX_PATH := by omega
    cases hd : dofile (root ++ String.singleton delim ++ name ++ ".lua") with
    | error e =>
      simp [require_library, hcache, hpath, if_neg hnb, hvalid, hge, hd]
    | ok w =>
      simp [require_library, hcache, hpath, if_neg hnb, hvalid, hge, hd]

/-- A 250-character module name, driving the built path past 255. -/
def longName : String := String.mk (List.replicate 250 'a')

/-- Engine state with an empty cache and the one-character module root
`"r"`. -/
def sampleReqShortRoot : ReqState :=
  { loaded := fun _ => none, require_path := some "r"
    globals := fun _ => none }

set_option maxRecDepth 4000 in
/-- Closed witness for C7: a 250-character name overflows the 255
ceiling, and a short name resolves to `<root>/<name>.lua`. -/
theorem C7_require_path_build_witness :
    (require_library '/' sampleLoaders sampleDofile sampleReqShortRoot
      longName).result = Except.error "require_path exceeded 255" ∧
    (require_library '/' sampleLoaders sampleDofile sampleReqPath
      "mod").fsPath = some "/modules/mod.lua" := by
  have h1 := (C7_require_path_build '/' sampleLoaders sampleDofile
    sampleReqShortRoot longName "r" rfl (by decide) rfl (by decide)).1
    (by decide)
  have h2 := (C7_require_path_build '/' sampleLoaders sampleDofile
    sampleReqPath "mod" "/modules" rfl (by decide) rfl (by decide)).2
    (by decide)
  refine ⟨h1.1, ?_⟩
  rw [h2]
  exact congrArg some (by decide)

/-! ## C2: quota invariants across a sandbox lifetime -/

lemma U32_pos : 0 < U32 := by decide

lemma wrap32_lt (n : Nat) : wrap32 n < U32 := Nat.mod_lt _ U32_pos

lemma grow_newsize_gt (needed pos : Nat) :
    ∀ cur, 0 < cur → needed + pos < grow_newsize needed pos cur := by
  have H : ∀ k cur, 0 < cur → needed + pos + 1 - cur ≤ k →
      needed + pos < grow_newsize needed pos cur := by
    intro k
    induction k with
    | zero =>
      intro cur hc hk
      unfold grow_newsize
      rw [dif_neg (by omega : ¬ cur = 0)]
      rw [dif_neg (by omega : ¬ needed ≥ cur - pos)]
      omega
    | succ n ih =>
      intro cur hc hk
      unfold grow_newsize
      rw [dif_neg (by omega : ¬ cur = 0)]
      by_cases h : needed ≥ cur - pos
      · rw [dif_pos h]
        exact ih (2 * cur) (by omega) (by omega)
      · rw [dif_neg h]
        omega
  exact fun cur hc => H (needed + pos + 1 - cur) cur hc le_rfl

lemma realloc_output_wf (buf : OutputData) (needed : Nat) (aok : Bool)
    (h : (realloc_output buf needed aok).2 = false)
    (hsize : 0 < buf.size) (hneed : 0 < needed) :
    (realloc_output buf needed aok).1.pos = buf.pos ∧
    (realloc_output buf needed aok).1.maxsize = buf.maxsize ∧
    needed + buf.pos ≤ (realloc_output buf needed aok).1.size ∧
    (buf.maxsize ≠ 0 → (realloc_output buf needed aok).1.size ≤ buf.maxsize) ∧
    0 < (realloc_output buf needed aok).1.size := by
  simp only [realloc_output] at h ⊢
  by_cases hg : buf.maxsize ≠ 0 ∧ needed + buf.pos > buf.maxsize
  · rw [if_pos hg] at h
    simp at h
  · rw [if_neg hg] at h ⊢
    push_neg at hg
    by_cases haok : aok = true
    · rw [if_pos haok] at h ⊢
      have hn0 : needed + buf.pos <
          grow_newsize needed buf.pos (2 * buf.size) :=
        grow_newsize_gt needed buf.pos (2 * buf.size) (by omega)
      by_cases hcap : buf.maxsize ≠ 0 ∧
          grow_newsize needed buf.pos (2 * buf.size) > buf.maxsize
      · rw [if_pos hcap]
        have h3 := hg hcap.1
        refine ⟨rfl, rfl, ?_, ?_, ?_⟩
        · show needed + buf.pos ≤ buf.maxsize
          omega
        · intro hm
          show buf.maxsize ≤ buf.maxsize
          exact le_refl _
        · show 0 < buf.maxsize
          omega
      · rw [if_neg hcap]
        push_neg at hcap
        refine ⟨rfl, rfl, ?_, ?_, ?_⟩
        · show needed + buf.pos ≤ grow_newsize needed buf.pos (2 * buf.size)
          omega
        · intro hm
          show grow_newsize needed buf.pos (2 * buf.size) ≤ buf.maxsize
          exact hcap hm
        · show 0 < grow_newsize needed buf.pos (2 * buf.size)
          omega
    · rw [if_neg haok] at h
      simp at h

lemma appends_wf (buf : OutputData) (s : List Nat) (aok : Bool)
    (b' : OutputData) (h : appends buf s aok = (b', false))
    (hwf : BufWf buf) : b'.maxsize = buf.maxsize ∧ BufWf b' := by
  obtain ⟨hps, hms, hsz⟩ := hwf
  unfold appends at h
  by_cases h1 : buf.size - buf.pos < s.length + 1
  · rw [if_pos h1] at h
    by_cases h2 : (realloc_output buf (s.length + 1) aok).2
    · rw [if_pos h2] at h
      simp at h
    · rw [if_neg h2] at h
      have h2f : (realloc_output buf (s.length + 1) aok).2 = false := by
        revert h2
        cases (realloc_output buf (s.length + 1) aok).2 <;> simp
      obtain ⟨hpos, hmax, hle, hcapped, hzs⟩ :=
        realloc_output_wf buf (s.length + 1) aok h2f hsz (by omega)
      have hb : _ = b' := congrArg Prod.fst h
      rw [← hb]
      refine ⟨?_, ?_, ?_, ?_⟩
      · show (realloc_output buf (s.length + 1) aok).1.maxsize = buf.maxsize
        exact hmax
      · show (realloc_output buf (s.length + 1) aok).1.pos + s.length ≤
          (realloc_output buf (s.length + 1) aok).1.size
        omega
      · intro hm
        show (realloc_output buf (s.length + 1) aok).1.size ≤
          (realloc_output buf (s.length + 1) aok).1.maxsize
        rw [hmax]
        refine hcapped ?_
        have hm2 : (realloc_output buf (s.length + 1) aok).1.maxsize ≠ 0 := hm
        rw [hmax] at hm2
        exact hm2
      · show 0 < (realloc_output buf (s.length + 1) aok).1.size
        omega
  · rw [if_neg h1] at h
    have hb : _ = b' := congrArg Prod.fst h
    rw [← hb]
    refine ⟨rfl, ?_, ?_, ?_⟩
    · show buf.pos + s.length ≤ buf.size
      omega
    · intro hm
      show buf.size ≤ buf.maxsize
      exact hms hm
    · show 0 < buf.size
      exact hsz

lemma appendc_wf (buf : OutputData) (c : Nat) (aok : Bool)
    (b' : OutputData) (h : appendc buf c aok = (b', false))
    (hwf : BufWf buf) : b'.maxsize = buf.maxsize ∧ BufWf b' := by
  obtain ⟨hps, hms, hsz⟩ := hwf
  unfold appendc at h
  by_cases h1 : buf.size - buf.pos < 2
  · rw [if_pos h1] at h
    by_cases h2 : (realloc_output buf 2 aok).2
    · rw [if_pos h2] at h
      simp at h
    · rw [if_neg h2] at h
      have h2f : (realloc_output buf 2 aok).2 = false := by
        revert h2
        cases (realloc_output buf 2 aok).2 <;> simp
      obtain ⟨hpos, hmax, hle, hcapped, hzs⟩ :=
        realloc_output_wf buf 2 aok h2f hsz (by omega)
      have hb : _ = b' := congrArg Prod.fst h
      rw [← hb]
      refine ⟨?_, ?_, ?_, ?_⟩
      · show (realloc_output buf 2 aok).1.maxsize = buf.maxsize
        exact hmax
      · show (realloc_output buf 2 aok).1.pos + 1 ≤
          (realloc_output buf 2 aok).1.size
        omega
      · intro hm
        show (realloc_output buf 2 aok).1.size ≤
          (realloc_output buf 2 aok).1.maxsize
        rw [hmax]
        refine hcapped ?_
        have hm2 : (realloc_output buf 2 aok).1.maxsize ≠ 0 := hm
        rw [hmax] at hm2
        exact hm2
      · show 0 < (realloc_output buf 2 aok).1.size
        omega
  · rw [if_neg h1] at h
    have hb : _ = b' := congrArg Prod.fst h
    rw [← hb]
    refine ⟨rfl, ?_, ?_, ?_⟩
    · show buf.pos + 1 ≤ buf.size
      omega
    · intro hm
      show buf.size ≤ buf.maxsize
      exact hms hm
    · show 0 < buf.size
      exact hsz

lemma appendf_loop_wf (s : List Nat) (aok : Bool) :
    ∀ (fuel : Nat) (buf b' : OutputData),
      appendf_loop s aok fuel buf = (b', false) → BufWf buf →
      b'.maxsize = buf.maxsize ∧ BufWf b' := by
  intro fuel
  induction fuel with
  | zero =>
    intro buf b' h _
    simp [appendf_loop] at h
  | succ n ih =>
    intro buf b' h hwf
    obtain ⟨hps, hms, hsz⟩ := hwf
    unfold appendf_loop at h
    by_cases h1 : s.length ≥ buf.size - buf.pos
    · rw [if_pos h1] at h
      by_cases h2 : buf.maxsize ≠ 0 ∧
          (buf.size ≥ buf.maxsize ∨ buf.pos + s.length ≥ buf.maxsize)
      · rw [if_pos h2] at h
        simp at h
      · rw [if_neg h2] at h
        push_neg at h2
        by_cases haok : aok = true
        · rw [if_pos haok] at h
          have hn0 : s.length + buf.pos <
              grow_newsize s.length buf.pos (2 * buf.size) :=
            grow_newsize_gt s.length buf.pos (2 * buf.size) (by omega)
          by_cases hcap : buf.maxsize ≠ 0 ∧
              grow_newsize s.length buf.pos (2 * buf.size) > buf.maxsize
          · rw [if_pos hcap] at h
            have h2' := h2 hcap.1
            have hres := ih _ b' h
              ⟨show buf.pos ≤ buf.maxsize by omega,
               fun _ => show buf.maxsize ≤ buf.maxsize from le_refl _,
               show 0 < buf.maxsize by omega⟩
            exact ⟨hres.1, hres.2⟩
          · rw [if_neg hcap] at h
            push_neg at hcap
            have hres := ih _ b' h
              ⟨show buf.pos ≤ grow_newsize s.length buf.pos (2 * buf.size)
                 by omega,
               fun hm =>
                 show grow_newsize s.length buf.pos (2 * buf.size) ≤
                   buf.maxsize from hcap hm,
               show 0 < grow_newsize s.length buf.pos (2 * buf.size)
                 by omega⟩
            exact ⟨hres.1, hres.2⟩
        · rw [if_neg haok] at h
          simp at h
    · rw [if_neg h1] at h
      have hb : _ = b' := congrArg Prod.fst h
      rw [← hb]
      refine ⟨rfl, ?_, ?_, ?_⟩
      · show buf.pos + s.length ≤ buf.size
        omega
      · intro hm
        show buf.size ≤ buf.maxsize
        exact hms hm
      · show 0 < buf.size
        exact hsz

lemma memory_manager_quota (u : Quota) (osize nsize : Nat) (rok : Bool)
    (hfree : nsize = 0 → osize ≤ u.current)
    (halloc : 0 < nsize → osize ≤ u.current + nsize ∧
      u.current + nsize - osize < U32)
    (ho : osize < U64) (hcur : u.current < U32) (hq : QuotaInv u)
    (hmax : u.maximum < U32) :
    QuotaInv (memory_manager u osize nsize rok).usage ∧
    (memory_manager u osize nsize rok).usage.current < U32 ∧
    (memory_manager u osize nsize rok).usage.maximum < U32 ∧
    (memory_manager u osize nsize rok).usage.limit = u.limit ∧
    u.maximum ≤ (memory_manager u osize nsize rok).usage.maximum := by
  obtain ⟨hcm, hcl⟩ := hq
  unfold memory_manager
  by_cases hn : nsize = 0
  · rw [if_pos hn]
    rw [mm_free_current u.current osize hcur (hfree hn)]
    refine ⟨⟨by simp only []; omega, fun hl => ?_⟩,
      by simp only []; omega, hmax, rfl, le_refl _⟩
    simp only []
    exact le_trans (by omega) (hcl hl)
  · rw [if_neg hn]
    have hpos : 0 < nsize := by omega
    have hproj := mm_alloc_projected u.current osize nsize ho
      (halloc hpos).1 (halloc hpos).2
    rw [hproj]
    by_cases hc : u.limit = 0 ∨ u.current + nsize - osize ≤ u.limit
    · rw [if_pos hc]
      by_cases hrok : rok = true
      · rw [if_pos hrok]
        by_cases hgt : u.current + nsize - osize > u.maximum
        · rw [if_pos hgt]
          refine ⟨⟨le_refl _, fun hl => ?_⟩, (halloc hpos).2,
            (halloc hpos).2, rfl, by simp only []; omega⟩
          simp only []
          rcases hc with hc | hc
          · exact absurd hc hl
          · exact hc
        · rw [if_neg hgt]
          refine ⟨⟨by simp only []; omega, fun hl => ?_⟩,
            (halloc hpos).2, hmax, rfl, le_refl _⟩
          simp only []
          rcases hc with hc | hc
          · exact absurd hc hl
          · exact hc
      · rw [if_neg hrok]
        exact ⟨⟨hcm, hcl⟩, hcur, hmax, rfl, le_refl _⟩
    · rw [if_neg hc]
      exact ⟨⟨hcm, hcl⟩, hcur, hmax, rfl, le_refl _⟩

lemma sbstep_preserves {s t : SbState} (hstep : SbStep s t)
    (hinv : SbInv s) :
    SbInv t ∧ s.mem.maximum ≤ t.mem.maximum ∧
      s.out.maximum ≤ t.out.maximum := by
  obtain ⟨hqm, hqo, hbwf, hc32, hm32, hl32, hoc32, hom32, holink, hmax32⟩ :=
    hinv
  cases hstep with
  | alloc osize nsize rok hfree halloc ho hn =>
    obtain ⟨hq', hc', hm', hl', hmono⟩ := memory_manager_quota s.mem osize
      nsize rok hfree halloc ho hc32 hqm hm32
    exact ⟨⟨hq', hqo, hbwf, hc', hm', by rw [hl']; exact hl32, hoc32, hom32,
      holink, hmax32⟩, hmono, le_refl _⟩
  | apstr str aok b' h =>
    obtain ⟨hmax, hwf'⟩ := appends_wf s.buf str aok b' h hbwf
    exact ⟨⟨hqm, hqo, hwf', hc32, hm32, hl32, hoc32, hom32,
      holink.trans hmax.symm, by rw [hmax]; exact hmax32⟩,
      le_refl _, le_refl _⟩
  | apchr c aok b' h =>
    obtain ⟨hmax, hwf'⟩ := appendc_wf s.buf c aok b' h hbwf
    exact ⟨⟨hqm, hqo, hwf', hc32, hm32, hl32, hoc32, hom32,
      holink.trans hmax.symm, by rw [hmax]; exact hmax32⟩,
      le_refl _, le_refl _⟩
  | apfmt str aok b' h =>
    obtain ⟨hmax, hwf'⟩ := appendf_loop_wf str aok 2 s.buf b' h hbwf
    exact ⟨⟨hqm, hqo, hwf', hc32, hm32, hl32, hoc32, hom32,
      holink.trans hmax.symm, by rw [hmax]; exact hmax32⟩,
      le_refl _, le_refl _⟩
  | stats =>
    obtain ⟨hps, hcapped, hsz⟩ := hbwf
    have hwc : wrap32 s.buf.pos < U32 := wrap32_lt s.buf.pos
    refine ⟨⟨hqm, ⟨?_, ?_⟩, ⟨hps, hcapped, hsz⟩, hc32, hm32, hl32, hwc, ?_,
      holink, hmax32⟩, le_refl _, ?_⟩
    · simp only [update_output_stats]
      by_cases hgt : wrap32 s.buf.pos > s.out.maximum
      · rw [if_pos hgt]
      · rw [if_neg hgt]
        omega
    · intro hl
      simp only [update_output_stats]
      have hmz : s.buf.maxsize ≠ 0 := by rw [← holink]; exact hl
      have hple : s.buf.pos ≤ s.buf.maxsize :=
        le_trans hps (hcapped hmz)
      have hplt : s.buf.pos < U32 := lt_of_le_of_lt hple hmax32
      rw [wrap32_of_lt hplt, holink]
      exact hple
    · simp only [update_output_stats]
      by_cases hgt : wrap32 s.buf.pos > s.out.maximum
      · rw [if_pos hgt]
        omega
      · rw [if_neg hgt]
        exact hom32
    · simp only [update_output_stats]
      by_cases hgt : wrap32 s.buf.pos > s.out.maximum
      · rw [if_pos hgt]
        omega
      · rw [if_neg hgt]
  | term =>
    exact ⟨⟨⟨Nat.zero_le _, fun _ => Nat.zero_le _⟩, hqo, hbwf, U32_pos,
      hm32, hl32, hoc32, hom32, holink, hmax32⟩, le_refl _, le_refl _⟩

/-- C2: along every lifetime trace built from allocation-interposer
steps, append-primitive steps, output-statistics updates, and
termination, starting from a well-formed state, the quota table
satisfies `CURRENT ≤ MAXIMUM` and (when `LIMIT ≠ 0`)
`CURRENT ≤ LIMIT` for the memory and output resources at every
observable point — including immediately after a partially failed
`output()` (whose final statistics update is a `stats` step) — and each
`MAXIMUM` counter is monotone non-decreasing across the trace. -/
theorem C2_quota_invariants (s s' : SbState) (hinv : SbInv s)
    (hsteps : Relation.ReflTransGen SbStep s s') :
    SbInv s' ∧ s.mem.maximum ≤ s'.mem.maximum ∧
      s.out.maximum ≤ s'.out.maximum := by
  induction hsteps with
  | refl => exact ⟨hinv, le_refl _, le_refl _⟩
  | tail hab hbc ih =>
    obtain ⟨hi, h1, h2⟩ := ih
    obtain ⟨hi', h1', h2'⟩ := sbstep_preserves hbc hi
    exact ⟨hi', le_trans h1 h1', le_trans h2 h2'⟩

/-- Sample lifecycle state for the C2 witness. -/
def sampleSbState : SbState :=
  { mem := { limit := 0, current := 0, maximum := 0 }
    out := { limit := 8, current := 0, maximum := 0 }
    buf := { data := fun _ => 0, pos := 0, size := 4, maxsize := 8 } }

/-- Closed witness for C2: the invariant holds initially and is carried
across a concrete statistics-update step. -/
theorem C2_quota_invariants_witness :
    SbInv sampleSbState ∧
    SbInv { sampleSbState with
      out := update_output_stats sampleSbState.buf sampleSbState.out } ∧
    sampleSbState.out.maximum ≤
      ({ sampleSbState with
        out := update_output_stats sampleSbState.buf
          sampleSbState.out } : SbState).out.maximum := by
  have h0 : SbInv sampleSbState := by
    simp only [SbInv, QuotaInv, BufWf, sampleSbState]
    decide
  have h := C2_quota_invariants sampleSbState
    { sampleSbState with
      out := update_output_stats sampleSbState.buf sampleSbState.out }
    h0 (Relation.ReflTransGen.single (SbStep.stats sampleSbState))
  exact ⟨h0, h.1, h.2.2⟩

end LuaSandbox
